import Mathlib

/-!
Shallow embedding of `spm/make_spm.py` (swift-brave SPM package generator)
and verification of its specification claims.

Text is modelled as `List Char`; Python dictionaries as association lists;
external processes by the command lines they would execute, collected into
traces.  Filesystem reads are modelled by explicit inputs (file contents,
directory listings); filesystem writes and external executions appear as
events in the produced traces, so that absence of a side effect is provable.
-/

namespace MakeSpm

/-! ### Basic text utilities (Python `str` operations, over `List Char`) -/

/-- Python whitespace test used by `str.strip` / `str.rstrip`. -/
def pyIsSpace (c : Char) : Bool :=
  c.isWhitespace || c == '\x0B' || c == '\x0C'

/-- Python `str.rstrip()`. -/
def rstripChars (s : List Char) : List Char :=
  (s.reverse.dropWhile pyIsSpace).reverse

/-- Python `str.strip()`. -/
def stripChars (s : List Char) : List Char :=
  (rstripChars s).dropWhile pyIsSpace

/-- Index of the first occurrence of `pat` in `s` (Python `str.find` / `re.search`
on a literal pattern). -/
def findSubstrAux (pat : List Char) : List Char → Nat → Option Nat
  | [], i => if pat.isEmpty then some i else none
  | c :: rest, i =>
    if pat.isPrefixOf (c :: rest) then some i else findSubstrAux pat rest (i + 1)

def findSubstr (pat s : List Char) : Option Nat :=
  findSubstrAux pat s 0

/-- Fuel-driven worker for `replaceAll`; fuel `s.length` always suffices. -/
def replaceAllFuel (pat rep : List Char) : Nat → List Char → List Char
  | 0, s => s
  | _ + 1, [] => []
  | fuel + 1, c :: rest =>
    if pat ≠ [] ∧ pat.isPrefixOf (c :: rest) then
      rep ++ replaceAllFuel pat rep fuel ((c :: rest).drop pat.length)
    else
      c :: replaceAllFuel pat rep fuel rest

/-- Python `str.replace(pat, rep)`: replace every occurrence, left to right. -/
def replaceAll (pat rep s : List Char) : List Char :=
  replaceAllFuel pat rep s.length s

/-- Split on newline characters (Python-style: `"a\nb"` gives two segments,
a trailing newline yields a trailing empty segment). -/
def splitLines : List Char → List (List Char)
  | [] => [[]]
  | '\n' :: rest => [] :: splitLines rest
  | c :: rest =>
    match splitLines rest with
    | l :: ls => (c :: l) :: ls
    | [] => [[c]]

def joinLines : List (List Char) → List Char
  | [] => []
  | [l] => l
  | l :: ls => l ++ '\n' :: joinLines ls

/-! ### Manifest Normalizer (`normalize_rust_features`, `configure_rust_release_profile`) -/

/-- `normalize_rust_features` (make_spm.py lines 144-158): two literal
`str.replace` rewrites of the Cargo.toml text.  The function writes the file
back only when the text changed; as a text transformation it returns the
new content either way. -/
def normalize_rust_features (text : List Char) : List Char :=
  replaceAll ("crate-type = [\"rlib\"]").toList ("crate-type = [\"rlib\", \"staticlib\"]").toList
    (replaceAll ("single_thread_optimizations = [\"adblock/unsync-regex-caching\"]").toList
      ("single_thread_optimizations = []").toList text)

def profileHeader : List Char := ("[profile.release]").toList

/-- End offset of group 1 of `re.search(r"\[profile\.release\](.*?)(\n\[|$)", text, DOTALL)`
relative to the end of the literal header, together with a flag telling whether
the match stopped at `\n[` (true) or at `$` (false).  The non-greedy `(.*?)`
stops at the earliest position where `\n\[` matches or where `$` matches
(`$` without MULTILINE: end of string, or just before a terminal newline). -/
def findBlockStop : List Char → Nat
  | '\n' :: '[' :: _ => 0
  | ['\n'] => 0
  | [] => 0
  | _ :: rest => findBlockStop rest + 1

/-- One line of the block matches the compiled pattern
`rf"^{re.escape(key)}\\s*=.*$"` (MULTILINE).  Because the pattern is built in a
raw f-string, `\\s*` denotes a literal backslash followed by `s*`: a line
matches only if the key is followed by a literal `\` character, zero or more
`s` characters, and `=`. -/
def lineMatchesKey (key line : List Char) : Bool :=
  if key.isPrefixOf line then
    match line.drop key.length with
    | '\\' :: rest => (rest.dropWhile (· == 's')).head? == some '='
    | _ => false
  else false

/-- `pattern.sub(f"{key} = {value}", block_text, count=1)`: the pattern spans a
whole line, so substitution replaces the first matching line. -/
def subFirstKeyLine (key value : List Char) : List (List Char) → List (List Char)
  | [] => []
  | l :: ls =>
    if lineMatchesKey key l then (key ++ (" = ").toList ++ value) :: ls
    else l :: subFirstKeyLine key value ls

/-- `ensure_setting` (make_spm.py lines 179-183). -/
def ensure_setting (blockText key value : List Char) : List Char :=
  let ls := splitLines blockText
  if ls.any (lineMatchesKey key) then joinLines (subFirstKeyLine key value ls)
  else rstripChars blockText ++ '\n' :: (key ++ (" = ").toList ++ value) ++ ['\n']

/-- `configure_rust_release_profile` (make_spm.py lines 161-195) as a text
transformation on the Cargo.toml content (the write-back happens only when
the content changed, which does not affect the resulting content). -/
def configure_rust_release_profile (text : List Char) : List Char :=
  let updatedFrom : List Char → List Char := fun content =>
    ensure_setting (ensure_setting content ("lto").toList ("\"thin\"").toList)
      ("codegen-units").toList ("1").toList
  match findSubstr profileHeader text with
  | some i =>
    let afterHeader := i + profileHeader.length
    let stop := findBlockStop (text.drop afterHeader)
    let content := (text.drop afterHeader).take stop
    let pre := text.take i
    let suf := text.drop (afterHeader + stop)
    pre ++ profileHeader ++ updatedFrom content ++ suf
  | none =>
    let pre := rstripChars text ++ ("\n\n[profile.release]\n").toList
    pre ++ updatedFrom [] ++ ['\n']

/-- The Manifest Normalizer stage as run by `main`: feature/library-kind
normalization followed by release-profile normalization. -/
def manifest_normalizer (text : List Char) : List Char :=
  configure_rust_release_profile (normalize_rust_features text)

/-! ### External command execution and logging (`run`, `xcrun_sdk_path`, `xcrun_find`) -/

/-- Observable events of the pipeline: a `print` of a command line (the
logging in `run`), the execution of an external command, and other prints. -/
inductive Event
  | log (cmd : List String)
  | exec (cmd : List String)
  | note (msg : String)
deriving DecidableEq

/-- `run` (make_spm.py lines 33-36): print the command line, then execute it
via `subprocess.run(..., check=True)`. -/
def run_trace (cmd : List String) : List Event :=
  [Event.log cmd, Event.exec cmd]

/-- `xcrun_sdk_path` (make_spm.py lines 198-199): `subprocess.check_output`
with no print. -/
def xcrun_sdk_path_trace (sdk : String) : List Event :=
  [Event.exec ["xcrun", "--sdk", sdk, "--show-sdk-path"]]

/-- `xcrun_find` (make_spm.py lines 202-203): `subprocess.check_output`
with no print. -/
def xcrun_find_trace (sdk tool : String) : List Event :=
  [Event.exec ["xcrun", "--sdk", sdk, "-f", tool]]

def cmdSeen (c : List String) : List (List String) → Bool
  | [] => false
  | d :: rest => c == d || cmdSeen c rest

/-- Every `exec` event in the trace is preceded by a `log` of the same
command line. -/
def execsLoggedFrom : List (List String) → List Event → Bool
  | _, [] => true
  | seen, Event.log c :: rest => execsLoggedFrom (c :: seen) rest
  | seen, Event.exec c :: rest => cmdSeen c seen && execsLoggedFrom seen rest
  | seen, Event.note _ :: rest => execsLoggedFrom seen rest

def execsLogged (tr : List Event) : Bool :=
  execsLoggedFrom [] tr

/-! ### Destination Validator (`ensure_swift_brave_dir`) -/

/-- The filesystem facts the validator reads: `Path.exists` and `Path.is_dir`.
Paths are resolved absolute paths, as lists of components. -/
structure FS where
  pathExists : List String → Bool
  isDir : List String → Bool

/-- `Path.name`: the final path component. -/
def pathName (p : List String) : String :=
  p.getLast?.getD ""

/-- `ensure_swift_brave_dir` (make_spm.py lines 49-55), applied to the already
resolved path (`path.expanduser().resolve()`).  The second component is the
list of filesystem mutations performed: the function only reads, so it is
empty on every branch. -/
def ensure_swift_brave_dir (fs : FS) (resolved : List String) :
    Except String (List String) × List String :=
  if pathName resolved != "swift-brave" then
    (Except.error "Destination must be a directory named swift-brave", [])
  else if !fs.pathExists resolved || !fs.isDir resolved then
    (Except.error "Destination does not exist or is not a directory", [])
  else
    (Except.ok resolved, [])

/-- Boolean test that the final path component ends with `suf`. -/
def nameEndsWith (p : List String) (suf : String) : Bool :=
  suf.toList.isSuffixOf (pathName p).toList

/-! ### Workspace cleanup (`clean_destination`, `is_within`, `remove_tree`) -/

def ALLOWED_ROOT_ENTRIES : List String := [".git", ".gitignore"]

/-- A top-level entry of the destination as seen by `dest.iterdir()`:
its name, the fully resolved path it points at (`entry.resolve()`, following
symlinks), and whether `entry.is_symlink() or entry.is_file()` holds. -/
structure Entry where
  name : String
  resolved : List String
  isLinkOrFile : Bool
deriving DecidableEq

/-- `is_within` (make_spm.py lines 58-63): `child.resolve().relative_to(root.resolve())`
succeeds exactly when the resolved root is a lexical ancestor of the resolved
child; `root` is given already resolved here. -/
def is_within (root : List String) (child : Entry) : Bool :=
  root.isPrefixOf child.resolved

/-- `clean_destination` (make_spm.py lines 66-75) over the entry listing, in
iteration order.  Returns the entries actually deleted (by `unlink` for
symlinks/files, by `remove_tree` for directories - either way the entry
itself), and the `SystemExit` error if one was raised. -/
def clean_destination (dest : List String) : List Entry → List Entry × Option String
  | [] => ([], none)
  | e :: rest =>
    if ALLOWED_ROOT_ENTRIES.contains e.name then
      clean_destination dest rest
    else if !is_within dest e then
      ([], some "Refusing to remove outside of destination")
    else
      let r := clean_destination dest rest
      (e :: r.1, r.2)

/-- POSIX `errno.ENOTEMPTY`. -/
def ENOTEMPTY : Nat := 39

/-- Outcome of one `shutil.rmtree` attempt. -/
inductive RmAttempt
  | success
  | failure (errno : Nat)
deriving DecidableEq

/-- Observable actions of `remove_tree`. -/
inductive FsEvent
  | rmtreeCall (attempt : Nat)
  | sleepCall
  | walkFallback
  | raiseErr (errno : Nat)
deriving DecidableEq

/-- The `for _ in range(3)` loop of `remove_tree` (make_spm.py lines 78-95):
`attempt i` is the outcome of the i-th `shutil.rmtree` call.  On success the
function returns; an `OSError` whose errno is not ENOTEMPTY is re-raised
immediately; ENOTEMPTY sleeps 0.05s and retries.  When the three attempts are
exhausted `last_exc` is necessarily set, so the manual bottom-up
walk-and-delete fallback runs. -/
def remove_tree_loop (attempt : Nat → RmAttempt) (i : Nat) : Nat → List FsEvent
  | 0 => [FsEvent.walkFallback]
  | fuel + 1 =>
    match attempt i with
    | RmAttempt.success => [FsEvent.rmtreeCall i]
    | RmAttempt.failure e =>
      if e = ENOTEMPTY then
        FsEvent.rmtreeCall i :: FsEvent.sleepCall :: remove_tree_loop attempt (i + 1) fuel
      else
        [FsEvent.rmtreeCall i, FsEvent.raiseErr e]

def remove_tree (attempt : Nat → RmAttempt) : List FsEvent :=
  remove_tree_loop attempt 0 3

/-! ### Patch Applier (`apply_patches`) -/

/-- A patch file as discovered by `PATCHES_DIR.glob("*.patch")`: its filename
and whether `git apply --whitespace=nowarn` exits zero on it. -/
structure PatchFile where
  name : String
  applies : Bool
deriving DecidableEq

/-- Code-point lexicographic comparison of char lists: the order in which
Python `sorted` arranges the patch `Path`s (they share a directory, so the
order is that of their filenames). -/
def charListLe : List Char → List Char → Bool
  | [], _ => true
  | _ :: _, [] => false
  | a :: as, b :: bs =>
    if a.toNat < b.toNat then true
    else if b.toNat < a.toNat then false
    else charListLe as bs

def patchLe (a b : PatchFile) : Prop :=
  charListLe a.name.toList b.name.toList = true

instance : DecidableRel patchLe := fun a b =>
  Bool.decEq (charListLe a.name.toList b.name.toList) true

/-- `sorted(PATCHES_DIR.glob("*.patch"))`: Python sorted is a stable sort by a
total preorder, hence equal to stable insertion sort by the same order. -/
def sortPatches (l : List PatchFile) : List PatchFile :=
  List.insertionSort patchLe l

def patchCmd (p : PatchFile) : List String :=
  ["git", "apply", "--whitespace=nowarn", p.name]

inductive PatchError
  | noPatches
  | patchFailed (name : String)
deriving DecidableEq

/-- The `for patch in patch_files` loop: run `git apply` on each in order;
`run` raises on the first non-zero exit, so later patches never run.
Returns the commands actually executed and the error, if any. -/
def apply_patches_go : List PatchFile → List (List String) × Option PatchError
  | [] => ([], none)
  | p :: rest =>
    if p.applies then
      let r := apply_patches_go rest
      (patchCmd p :: r.1, r.2)
    else
      ([patchCmd p], some (PatchError.patchFailed p.name))

/-- `apply_patches` (make_spm.py lines 136-141): sort the discovered patch
files, fail before patching when none were found, else apply in order. -/
def apply_patches (found : List PatchFile) : List (List String) × Option PatchError :=
  let patch_files := sortPatches found
  if patch_files.isEmpty then ([], some PatchError.noPatches)
  else apply_patches_go patch_files

/-! ### Cross-Compiler Driver build matrix (`rust_targets`, `cargo_build`, `rust_lib_path`) -/

def IOS_MIN_VERSION : String := "15.0"
def MACOS_MIN_VERSION : String := "14.0"

/-- One `(target, features, sdk, min_version)` tuple of the `rust_targets`
list in `build_xcframework`. -/
structure TargetDescriptor where
  target : String
  features : String
  sdk : String
  minVersion : String
deriving DecidableEq

/-- The fixed build matrix (make_spm.py lines 319-325). -/
def rust_targets : List TargetDescriptor :=
  [⟨"aarch64-apple-ios", "ios", "iphoneos", IOS_MIN_VERSION⟩,
   ⟨"aarch64-apple-ios-sim", "ios", "iphonesimulator", IOS_MIN_VERSION⟩,
   ⟨"x86_64-apple-ios", "ios", "iphonesimulator", IOS_MIN_VERSION⟩,
   ⟨"aarch64-apple-darwin", "ios", "macosx", MACOS_MIN_VERSION⟩,
   ⟨"x86_64-apple-darwin", "ios", "macosx", MACOS_MIN_VERSION⟩]

/-- The command line issued by `cargo_build` (make_spm.py lines 224-229);
`if features:` tests string non-emptiness. -/
def cargo_build_cmd (d : TargetDescriptor) : List String :=
  ["cargo", "build", "--release", "--target", d.target] ++
    (if d.features = "" then [] else ["--features", d.features])

/-- The native release builds run by the `for target, features, sdk, min_version
in rust_targets` loop, one per descriptor, in order. -/
def cargo_build_cmds : List (List String) :=
  rust_targets.map cargo_build_cmd

/-- `rust_lib_path` (make_spm.py lines 351-352): path components below the
crate directory of the static library produced for a triple. -/
def rust_lib_path (triple : String) : List String :=
  ["target", triple, "release", "libadblock_cxx.a"]

/-! ### Universal Binary Merger (`lipo_create` and the three merges) -/

/-- The per-architecture static library returned by `build_for_arch`,
identified by the `(sdk, arch)` pair that keys its object directory
`libs/obj-{sdk}-{arch}` and by the rust triple merged into it. -/
structure ArchLib where
  arch : String
  triple : String
  sdk : String
deriving DecidableEq

def ios_arm64 : ArchLib := ⟨"arm64", "aarch64-apple-ios", "iphoneos"⟩
def ios_sim_arm64 : ArchLib := ⟨"arm64", "aarch64-apple-ios-sim", "iphonesimulator"⟩
def ios_sim_x86 : ArchLib := ⟨"x86_64", "x86_64-apple-ios", "iphonesimulator"⟩
def mac_arm64 : ArchLib := ⟨"arm64", "aarch64-apple-darwin", "macosx"⟩
def mac_x86 : ArchLib := ⟨"x86_64", "x86_64-apple-darwin", "macosx"⟩

def archLibPath (l : ArchLib) : String :=
  "libs/obj-" ++ l.sdk ++ "-" ++ l.arch ++ "/libBraveAdblockCore.a"

/-- `lipo_create` (make_spm.py lines 295-299): the fat-merge command line. -/
def lipo_create_cmd (output : String) (inputs : List String) : List String :=
  ["xcrun", "lipo", "-create"] ++ inputs ++ ["-output", output]

/-- One universal-library merge: the platform subdirectory of `libs/` the
output goes to, and the per-architecture input libraries. -/
structure UniversalMerge where
  platformDir : String
  inputs : List ArchLib
deriving DecidableEq

/-- make_spm.py lines 385-387. -/
def ios_universal_merge : UniversalMerge := ⟨"ios", [ios_arm64]⟩

/-- make_spm.py lines 389-391. -/
def ios_sim_universal_merge : UniversalMerge := ⟨"ios-sim", [ios_sim_arm64, ios_sim_x86]⟩

/-- make_spm.py lines 393-395. -/
def mac_universal_merge : UniversalMerge := ⟨"macos", [mac_arm64, mac_x86]⟩

/-- The three merges of `build_xcframework`, in order. -/
def universal_merges : List UniversalMerge :=
  [ios_universal_merge, ios_sim_universal_merge, mac_universal_merge]

/-- Every merge is routed through `lipo_create`. -/
def mergeCmd (m : UniversalMerge) : List String :=
  lipo_create_cmd ("libs/" ++ m.platformDir ++ "/libBraveAdblockCore.a")
    (m.inputs.map archLibPath)

/-! ### Lockfile generation and the rmp pin (`cargo_lock_has_package`) -/

/-- `cargo_lock_has_package` (make_spm.py lines 39-46): `none` models
`FileNotFoundError` from `lock_path.read_text()`; otherwise the lockfile
is its list of lines. -/
def cargo_lock_has_package (lock : Option (List (List Char))) (name : List Char) : Bool :=
  match lock with
  | none => false
  | some lines =>
    lines.any (fun l => stripChars l == ("name = \"").toList ++ name ++ ("\"").toList)

def generateLockfileCmd : List String := ["cargo", "generate-lockfile"]

def pinRmpCmd : List String := ["cargo", "update", "-p", "rmp", "--precise", "0.8.8"]

/-- make_spm.py lines 312-317: generate the lockfile, then pin `rmp` exactly
when `cargo_lock_has_package` finds it, else print a skip note. -/
def lockfile_pin_trace (lock : Option (List (List Char))) : List Event :=
  run_trace generateLockfileCmd ++
    (if cargo_lock_has_package lock ("rmp").toList then run_trace pinRmpCmd
     else [Event.note "# skip: cargo package rmp not found in Cargo.lock"])

/-! ### Build Environment (`rust_env_for_sdk`) -/

/-- A process environment: an association list with the lookup/update
semantics of a Python `dict` (first binding wins; update replaces in place). -/
abbrev Env := List (String × String)

def envGet (e : Env) (k : String) : Option String :=
  match e with
  | [] => none
  | (k0, v0) :: rest => if k0 == k then some v0 else envGet rest k

def envSet (e : Env) (k v : String) : Env :=
  match e with
  | [] => [(k, v)]
  | (k0, v0) :: rest => if k0 == k then (k0, v) :: rest else (k0, v0) :: envSet rest k v

/-- Results of the `xcrun` queries made while deriving the environment. -/
structure Xcrun where
  sdkPath : String → String
  findTool : String → String → String

def extra_flags : String := "-C link-arg=-dead_strip"

/-- Python `str.strip()` on `String`. -/
def pyStrip (s : String) : String :=
  List.asString (stripChars s.toList)

/-- `rust_env_for_sdk` (make_spm.py lines 206-221): start from a copy of the
ambient environment (`os.environ.copy()` - the ambient mapping itself is
never written), set the SDK root, the four toolchain paths and the
deployment-target variable for the OS family, and append the dead-strip
linker flag to any existing RUSTFLAGS. -/
def rust_env_for_sdk (xc : Xcrun) (sdk minVersion : String) (ambient : Env) : Env :=
  let env := ambient
  let env := envSet env "SDKROOT" (xc.sdkPath sdk)
  let env := envSet env "CC" (xc.findTool sdk "clang")
  let env := envSet env "CXX" (xc.findTool sdk "clang++")
  let env := envSet env "AR" (xc.findTool sdk "ar")
  let env := envSet env "RANLIB" (xc.findTool sdk "ranlib")
  let env :=
    if ("iphone").toList.isPrefixOf sdk.toList then
      envSet env "IPHONEOS_DEPLOYMENT_TARGET" minVersion
    else
      envSet env "MACOSX_DEPLOYMENT_TARGET" minVersion
  let rustflags := (envGet env "RUSTFLAGS").getD ""
  envSet env "RUSTFLAGS" (pyStrip (rustflags ++ " " ++ extra_flags))

/-- The variables `rust_env_for_sdk` writes. -/
def keyOverridden (key : String) : Bool :=
  key == "SDKROOT" || key == "CC" || key == "CXX" || key == "AR" || key == "RANLIB" ||
    key == "IPHONEOS_DEPLOYMENT_TARGET" || key == "MACOSX_DEPLOYMENT_TARGET" ||
    key == "RUSTFLAGS"

/-! ### Concrete inputs used by witnesses and counterexamples -/

/-- A Cargo.toml lacking the release-profile block. -/
def c1_manifest : List Char :=
  ("[package]\nname = \"adblock-cxx\"\ncrate-type = [\"rlib\"]\n").toList

/-- A filesystem on which no path exists. -/
def c3_empty_fs : FS := ⟨fun _ => false, fun _ => false⟩

/-- A filesystem on which every path is an existing directory. -/
def c3_dirs_fs : FS := ⟨fun _ => true, fun _ => true⟩

def c4_dest : List String := ["", "home", "u", "swift-brave"]

/-- An allow-list-named entry whose resolution escapes the destination. -/
def c4_git_outside : Entry := ⟨".git", ["", "elsewhere", "target"], true⟩

/-- An ordinary entry resolving inside the destination. -/
def c4_inside : Entry := ⟨"Sources", ["", "home", "u", "swift-brave", "Sources"], false⟩

/-- A non-allow-listed symlink resolving outside the destination. -/
def c4_outside : Entry := ⟨"evil", ["", "elsewhere", "target"], true⟩

def c5_p1 : PatchFile := ⟨"01-fix.patch", true⟩
def c5_p2 : PatchFile := ⟨"02-break.patch", false⟩
def c5_p3 : PatchFile := ⟨"03-more.patch", true⟩

/-- Discovery order differs from filename order on purpose. -/
def c5_found : List PatchFile := [c5_p3, c5_p1, c5_p2]

def c9_xcrun : Xcrun := ⟨fun _ => "/SDK", fun _ tool => "/usr/bin/" ++ tool⟩

def c9_ambient : Env := [("PATH", "/usr/bin"), ("CC", "cc0"), ("RUSTFLAGS", "-O")]

/-- rmtree fails with ENOTEMPTY on every attempt. -/
def c10_always_busy : Nat → RmAttempt := fun _ => RmAttempt.failure ENOTEMPTY

/-- rmtree fails with ENOTEMPTY once, then with EACCES (13). -/
def c10_then_denied : Nat → RmAttempt := fun i =>
  if i = 0 then RmAttempt.failure ENOTEMPTY else RmAttempt.failure 13

/-! ## Theorems -/

set_option maxRecDepth 8192 in
/-- C1: the Manifest Normalizer is claimed idempotent, but the code is not:
on a manifest lacking the release-profile block, running the two
normalization operations twice appends a second `lto`/`codegen-units` pair,
so the result differs from running them once.  (The compiled key pattern
`rf"^{key}\\s*=.*$"` demands a literal backslash after the key, so the
substitution branch of `ensure_setting` can never fire and every run
appends.) -/
theorem c1_manifest_normalizer_not_idempotent :
    manifest_normalizer (manifest_normalizer c1_manifest) ≠ manifest_normalizer c1_manifest := by
  decide

/-- C6: the device (iphoneos) universal merge consumes exactly one
per-architecture library; the simulator and desktop (macosx) merges each
consume exactly two inputs of distinct architectures; and all three merges
are routed through the same `lipo -create` merge operation. -/
theorem c6_universal_merge_inputs :
    ios_universal_merge.inputs.length = 1 ∧
    (ios_universal_merge.inputs.all fun l => l.sdk == "iphoneos") = true ∧
    ios_sim_universal_merge.inputs.length = 2 ∧
    (ios_sim_universal_merge.inputs.all fun l => l.sdk == "iphonesimulator") = true ∧
    (ios_sim_universal_merge.inputs.map ArchLib.arch).Nodup ∧
    mac_universal_merge.inputs.length = 2 ∧
    (mac_universal_merge.inputs.all fun l => l.sdk == "macosx") = true ∧
    (mac_universal_merge.inputs.map ArchLib.arch).Nodup ∧
    universal_merges.length = 3 ∧
    ((universal_merges.map mergeCmd).all fun c => c.take 3 == ["xcrun", "lipo", "-create"]) =
      true := by
  decide

/-- C7: the build matrix is a fixed list of five target descriptors with
pairwise distinct triples; the driver issues exactly one native release
build command per descriptor (five in all, each appearing exactly once);
and each triple's produced static library lives under
`target/<triple>/release`. -/
theorem c7_build_matrix :
    rust_targets.length = 5 ∧
    (rust_targets.map TargetDescriptor.target).Nodup ∧
    cargo_build_cmds.length = 5 ∧
    (rust_targets.all fun d => cargo_build_cmds.count (cargo_build_cmd d) == 1) = true ∧
    (rust_targets.all fun d =>
      rust_lib_path d.target == ["target", d.target, "release", "libadblock_cxx.a"]) = true := by
  decide

/-- C2 counterexample: the SDK-query helper `xcrun_sdk_path` executes an
external command with no preceding log of the command line, refuting the
claim that no invocation helper executes an external command without first
logging it. -/
theorem c2_sdk_query_unlogged :
    xcrun_sdk_path_trace "iphoneos" =
      [Event.exec ["xcrun", "--sdk", "iphoneos", "--show-sdk-path"]] ∧
    execsLogged (xcrun_sdk_path_trace "iphoneos") = false := by
  decide

/-- C2 (amended): every external command routed through the `run` helper is
logged (printed) before it is executed, but the two `xcrun` SDK-query
helpers execute their command without logging it. -/
theorem c2_run_logs_xcrun_does_not (cmd : List String) (sdk tool : String) :
    execsLogged (run_trace cmd) = true ∧
    execsLogged (xcrun_sdk_path_trace sdk) = false ∧
    execsLogged (xcrun_find_trace sdk tool) = false := by
  refine ⟨?_, rfl, rfl⟩
  simp [execsLogged, run_trace, execsLoggedFrom, cmdSeen]

theorem remove_tree_loop_succ (attempt : Nat → RmAttempt) (i fuel : Nat) :
    remove_tree_loop attempt i (fuel + 1) =
      match attempt i with
      | RmAttempt.success => [FsEvent.rmtreeCall i]
      | RmAttempt.failure e =>
        if e = ENOTEMPTY then
          FsEvent.rmtreeCall i :: FsEvent.sleepCall :: remove_tree_loop attempt (i + 1) fuel
        else
          [FsEvent.rmtreeCall i, FsEvent.raiseErr e] := rfl

/-- C10: during directory removal only the directory-not-empty errno is
retried - at most three rmtree attempts with a sleep after each failing one,
then the manual bottom-up walk-and-delete fallback; a first success stops
immediately, and an OSError with any other errno is raised at its first
occurrence, with no further attempt and no fallback. -/
theorem c10_remove_tree_retry_policy (attempt : Nat → RmAttempt) (e : Nat) :
    ((∀ j, j < 3 → attempt j = RmAttempt.failure ENOTEMPTY) →
      remove_tree attempt =
        [FsEvent.rmtreeCall 0, FsEvent.sleepCall, FsEvent.rmtreeCall 1, FsEvent.sleepCall,
          FsEvent.rmtreeCall 2, FsEvent.sleepCall, FsEvent.walkFallback]) ∧
    (attempt 0 = RmAttempt.success → remove_tree attempt = [FsEvent.rmtreeCall 0]) ∧
    (e ≠ ENOTEMPTY → attempt 0 = RmAttempt.failure e →
      remove_tree attempt = [FsEvent.rmtreeCall 0, FsEvent.raiseErr e]) ∧
    (e ≠ ENOTEMPTY → attempt 0 = RmAttempt.failure ENOTEMPTY → attempt 1 = RmAttempt.failure e →
      remove_tree attempt =
        [FsEvent.rmtreeCall 0, FsEvent.sleepCall, FsEvent.rmtreeCall 1, FsEvent.raiseErr e]) ∧
    (e ≠ ENOTEMPTY → attempt 0 = RmAttempt.failure ENOTEMPTY →
      attempt 1 = RmAttempt.failure ENOTEMPTY → attempt 2 = RmAttempt.failure e →
      remove_tree attempt =
        [FsEvent.rmtreeCall 0, FsEvent.sleepCall, FsEvent.rmtreeCall 1, FsEvent.sleepCall,
          FsEvent.rmtreeCall 2, FsEvent.raiseErr e]) := by
  have h3 : (3 : Nat) = 2 + 1 := rfl
  have h2 : (2 : Nat) = 1 + 1 := rfl
  have h1 : (1 : Nat) = 0 + 1 := rfl
  refine ⟨fun h => ?_, fun h => ?_, fun hne h0 => ?_, fun hne h0 h1' => ?_,
    fun hne h0 h1' h2' => ?_⟩
  · rw [remove_tree, h3, remove_tree_loop_succ, h 0 (by omega)]
    simp only [if_pos rfl]
    rw [h2, remove_tree_loop_succ, h 1 (by omega)]
    simp only [if_pos rfl]
    rw [h1, remove_tree_loop_succ, h 2 (by omega)]
    simp only [if_pos rfl]
    rfl
  · rw [remove_tree, h3, remove_tree_loop_succ, h]
  · rw [remove_tree, h3, remove_tree_loop_succ, h0]
    simp only [if_neg hne]
  · rw [remove_tree, h3, remove_tree_loop_succ, h0]
    simp only [if_pos rfl]
    rw [h2, remove_tree_loop_succ, h1']
    simp [hne]
  · rw [remove_tree, h3, remove_tree_loop_succ, h0]
    simp only [if_pos rfl]
    rw [h2, remove_tree_loop_succ, h1']
    simp only [if_pos rfl]
    rw [h1, remove_tree_loop_succ, h2']
    simp [hne]

/-- C10 witness: the retry policy evaluated at two concrete attempt
oracles - one always ENOTEMPTY-busy (three attempts, sleeps, then the
walk fallback) and one whose second failure is EACCES (raised immediately
after the single retry, no fallback). -/
theorem c10_witness :
    remove_tree c10_always_busy =
      [FsEvent.rmtreeCall 0, FsEvent.sleepCall, FsEvent.rmtreeCall 1, FsEvent.sleepCall,
        FsEvent.rmtreeCall 2, FsEvent.sleepCall, FsEvent.walkFallback] ∧
    remove_tree c10_then_denied =
      [FsEvent.rmtreeCall 0, FsEvent.sleepCall, FsEvent.rmtreeCall 1, FsEvent.raiseErr 13] :=
  ⟨(c10_remove_tree_retry_policy c10_always_busy 0).1 (fun j _ => rfl),
   (c10_remove_tree_retry_policy c10_then_denied 13).2.2.2.1 (by decide) rfl rfl⟩

/-- C8: after lockfile generation, the rmp pin command is executed if and
only if some line of the lockfile strips to `name = "rmp"`; a missing
lockfile reads as not containing the package, in which case (and whenever
the package is absent) only the skip note is printed and nothing fails. -/
theorem c8_rmp_pin_iff_present (lock : Option (List (List Char))) :
    (Event.exec pinRmpCmd ∈ lockfile_pin_trace lock ↔
      ∃ lines, lock = some lines ∧
        ∃ l ∈ lines, stripChars l = ("name = \"rmp\"").toList) ∧
    lockfile_pin_trace none =
      run_trace generateLockfileCmd ++
        [Event.note "# skip: cargo package rmp not found in Cargo.lock"] := by
  constructor
  · cases lock with
    | none =>
      constructor
      · intro hmem
        exact absurd hmem (by decide)
      · rintro ⟨ls2, hsome, -⟩
        cases hsome
    | some lines =>
      have hname : ("name = \"").toList ++ ("rmp").toList ++ ("\"").toList =
          ("name = \"rmp\"").toList := by decide
      constructor
      · intro hmem
        by_cases hp : cargo_lock_has_package (some lines) (("rmp").toList) = true
        · refine ⟨lines, rfl, ?_⟩
          simp only [cargo_lock_has_package, List.any_eq_true, beq_iff_eq] at hp
          obtain ⟨l, hl, hsl⟩ := hp
          exact ⟨l, hl, by rw [hsl, hname]⟩
        · exfalso
          unfold lockfile_pin_trace at hmem
          rw [if_neg hp] at hmem
          exact absurd hmem (by decide)
      · rintro ⟨ls2, hsome, l, hl, hsl⟩
        have hll : lines = ls2 := Option.some.inj hsome
        subst hll
        have hp : cargo_lock_has_package (some lines) (("rmp").toList) = true := by
          simp only [cargo_lock_has_package, List.any_eq_true, beq_iff_eq]
          refine ⟨l, hl, ?_⟩
          rw [hsl]
          exact hname.symm
        unfold lockfile_pin_trace
        rw [if_pos hp]
        decide
  · rfl

/-- C3: the Destination Validator fails whenever the final path component
does not end in (in particular, is not equal to) `swift-brave`, fails when
the path does not exist or is not a directory, and performs no filesystem
mutation on any branch. -/
theorem c3_validator_rejects (fs : FS) (resolved : List String) :
    (nameEndsWith resolved "swift-brave" = false →
      ∃ msg, (ensure_swift_brave_dir fs resolved).1 = Except.error msg) ∧
    (fs.pathExists resolved = false ∨ fs.isDir resolved = false →
      ∃ msg, (ensure_swift_brave_dir fs resolved).1 = Except.error msg) ∧
    (ensure_swift_brave_dir fs resolved).2 = [] := by
  refine ⟨?_, ?_, ?_⟩
  · intro h
    by_cases heq : pathName resolved = "swift-brave"
    · exfalso
      rw [nameEndsWith, heq] at h
      have hx : (("swift-brave").toList.isSuffixOf ("swift-brave").toList) = true := by decide
      rw [hx] at h
      cases h
    · refine ⟨"Destination must be a directory named swift-brave", ?_⟩
      rw [ensure_swift_brave_dir, if_pos]
      simp [bne_iff_ne, heq]
  · intro h
    by_cases heq : pathName resolved = "swift-brave"
    · refine ⟨"Destination does not exist or is not a directory", ?_⟩
      rw [ensure_swift_brave_dir, if_neg, if_pos]
      · rcases h with h | h <;> simp [h]
      · simp [bne_iff_ne, heq]
    · refine ⟨"Destination must be a directory named swift-brave", ?_⟩
      rw [ensure_swift_brave_dir, if_pos]
      simp [bne_iff_ne, heq]
  · rw [ensure_swift_brave_dir]
    split
    · rfl
    · split <;> rfl

/-- C3 witness: on a filesystem with no paths, a path ending in `out` is
rejected with an error and with no filesystem mutation. -/
theorem c3_witness :
    nameEndsWith ["tmp", "out"] "swift-brave" = false ∧
    (∃ msg, (ensure_swift_brave_dir c3_empty_fs ["tmp", "out"]).1 = Except.error msg) ∧
    (∃ msg,
      (ensure_swift_brave_dir c3_empty_fs ["tmp", "swift-brave"]).1 = Except.error msg) ∧
    (ensure_swift_brave_dir c3_empty_fs ["tmp", "out"]).2 = [] :=
  ⟨by decide,
   (c3_validator_rejects c3_empty_fs ["tmp", "out"]).1 (by decide),
   (c3_validator_rejects c3_empty_fs ["tmp", "swift-brave"]).2.1 (Or.inl rfl),
   (c3_validator_rejects c3_empty_fs ["tmp", "out"]).2.2⟩

theorem clean_destination_deleted_sound (dest : List String) (entries : List Entry) :
    ∀ e ∈ (clean_destination dest entries).1,
      is_within dest e = true ∧ ALLOWED_ROOT_ENTRIES.contains e.name = false := by
  induction entries with
  | nil =>
    intro e he
    cases he
  | cons x rest ih =>
    intro e he
    rw [clean_destination] at he
    by_cases h1 : ALLOWED_ROOT_ENTRIES.contains x.name
    · rw [if_pos h1] at he
      exact ih e he
    · rw [if_neg h1] at he
      by_cases h2 : is_within dest x = true
      · simp only [h2, Bool.not_true, if_neg] at he
        simp only [Bool.false_eq_true, if_false] at he
        rcases List.mem_cons.mp he with rfl | he2
        · exact ⟨h2, by simpa using h1⟩
        · exact ih e he2
      · have h2f : is_within dest x = false := by
          cases hx : is_within dest x
          · rfl
          · exact absurd hx h2
        rw [h2f] at he
        simp at he

theorem clean_destination_unsafe_raises (dest : List String) (entries : List Entry) :
    (∃ e ∈ entries, ALLOWED_ROOT_ENTRIES.contains e.name = false ∧ is_within dest e = false) →
    ((clean_destination dest entries).2).isSome = true := by
  induction entries with
  | nil =>
    rintro ⟨e, he, -⟩
    cases he
  | cons x rest ih =>
    rintro ⟨e, he, hna, hout⟩
    rw [clean_destination]
    by_cases h1 : ALLOWED_ROOT_ENTRIES.contains x.name
    · rw [if_pos h1]
      rcases List.mem_cons.mp he with rfl | he2
      · rw [h1] at hna
        cases hna
      · exact ih ⟨e, he2, hna, hout⟩
    · rw [if_neg h1]
      by_cases h2 : is_within dest x = true
      · simp only [h2, Bool.not_true, Bool.false_eq_true, if_false]
        rcases List.mem_cons.mp he with rfl | he2
        · rw [h2] at hout
          cases hout
        · exact ih ⟨e, he2, hna, hout⟩
      · have h2f : is_within dest x = false := by
          cases hx : is_within dest x
          · rfl
          · exact absurd hx h2
        rw [h2f]
        rfl

/-- C4 (amended): cleanup deletes only entries that resolve inside the
destination and are not on the allow-list - so an entry resolving outside is
never deleted and `.git`/`.gitignore` are never removed - and whenever some
entry that is not allow-listed fails to resolve inside the destination, the
unsafe-path error is raised.  (The unamended claim also demanded the error
for allow-listed entries resolving outside; those are skipped instead, see
the counterexample.) -/
theorem c4_cleanup_safety (dest : List String) (entries : List Entry) :
    (∀ e ∈ (clean_destination dest entries).1,
      is_within dest e = true ∧ ALLOWED_ROOT_ENTRIES.contains e.name = false) ∧
    ((∃ e ∈ entries,
        ALLOWED_ROOT_ENTRIES.contains e.name = false ∧ is_within dest e = false) →
      ((clean_destination dest entries).2).isSome = true) :=
  ⟨clean_destination_deleted_sound dest entries, clean_destination_unsafe_raises dest entries⟩

/-- C4 counterexample: a top-level entry named `.git` that resolves outside
the destination is skipped by the allow-list check, so cleanup finishes with
no unsafe-path error (and deletes nothing) - refuting the claim that an
unsafe-path error is raised for every entry not resolving as a descendant. -/
theorem c4_counterexample :
    is_within c4_dest c4_git_outside = false ∧
    clean_destination c4_dest [c4_git_outside] = ([], none) := by
  decide

/-- C4 witness: with one safe entry, one escaping symlink and the `.git`
metadata entry, cleanup reports the unsafe-path error, and the safety
theorem applies. -/
theorem c4_witness :
    ((clean_destination c4_dest [c4_inside, c4_outside, c4_git_outside]).2).isSome = true ∧
    (∀ e ∈ (clean_destination c4_dest [c4_inside, c4_outside, c4_git_outside]).1,
      is_within c4_dest e = true ∧ ALLOWED_ROOT_ENTRIES.contains e.name = false) :=
  ⟨(c4_cleanup_safety c4_dest [c4_inside, c4_outside, c4_git_outside]).2
      ⟨c4_outside, by decide, by decide, by decide⟩,
   (c4_cleanup_safety c4_dest [c4_inside, c4_outside, c4_git_outside]).1⟩

theorem charListLe_total : ∀ a b : List Char, charListLe a b = true ∨ charListLe b a = true := by
  intro a
  induction a with
  | nil => intro b; exact Or.inl rfl
  | cons x xs ih =>
    intro b
    cases b with
    | nil => exact Or.inr rfl
    | cons y ys =>
      by_cases h1 : x.toNat < y.toNat
      · left
        simp [charListLe, h1]
      · by_cases h2 : y.toNat < x.toNat
        · right
          simp [charListLe, h2]
        · rcases ih ys with h | h
          · left
            simp [charListLe, h1, h2, h]
          · right
            simp [charListLe, h1, h2, h]

theorem charListLe_trans : ∀ a b c : List Char,
    charListLe a b = true → charListLe b c = true → charListLe a c = true := by
  intro a
  induction a with
  | nil => intro b c _ _; rfl
  | cons x xs ih =>
    intro b c hab hbc
    cases b with
    | nil => simp [charListLe] at hab
    | cons y ys =>
      cases c with
      | nil => simp [charListLe] at hbc
      | cons z zs =>
        simp only [charListLe] at hab hbc ⊢
        by_cases h1 : x.toNat < y.toNat
        · simp only [if_pos h1] at hab
          by_cases h2 : y.toNat < z.toNat
          · simp [show x.toNat < z.toNat by omega]
          · simp only [if_neg h2] at hbc
            by_cases h3 : z.toNat < y.toNat
            · simp only [if_pos h3] at hbc
              cases hbc
            · simp [show x.toNat < z.toNat by omega]
        · simp only [if_neg h1] at hab
          by_cases h2 : y.toNat < x.toNat
          · simp only [if_pos h2] at hab
            cases hab
          · simp only [if_neg h2] at hab
            by_cases h3 : y.toNat < z.toNat
            · simp [show x.toNat < z.toNat by omega]
            · simp only [if_neg h3] at hbc
              by_cases h4 : z.toNat < y.toNat
              · simp only [if_pos h4] at hbc
                cases hbc
              · simp only [if_neg h4] at hbc
                have hxz : ¬x.toNat < z.toNat := by omega
                have hzx : ¬z.toNat < x.toNat := by omega
                simp only [if_neg hxz, if_neg hzx]
                exact ih ys zs hab hbc

theorem apply_patches_go_fail (pre : List PatchFile) (f : PatchFile) (post : List PatchFile)
    (hpre : ∀ p ∈ pre, p.applies = true) (hf : f.applies = false) :
    apply_patches_go (pre ++ f :: post) =
      (pre.map patchCmd ++ [patchCmd f], some (PatchError.patchFailed f.name)) := by
  induction pre with
  | nil =>
    simp [apply_patches_go, hf]
  | cons q qs ih =>
    rw [List.cons_append, apply_patches_go,
      if_pos (hpre q (List.mem_cons_self q qs)),
      ih (fun p hp => hpre p (List.mem_cons_of_mem q hp))]
    simp

/-- C5: the Patch Applier fails before applying anything when no patch file
was discovered; otherwise the discovered patches are processed as a sorted
permutation of the discovery order, and a failing patch aborts the run: all
patches sorted before it have been applied, it itself was attempted, and no
later patch is ever run. -/
theorem c5_apply_patches_fail_fast (found : List PatchFile) :
    (found = [] → apply_patches found = ([], some PatchError.noPatches)) ∧
    List.Sorted patchLe (sortPatches found) ∧
    (sortPatches found).Perm found ∧
    (∀ pre f post, sortPatches found = pre ++ f :: post →
      (∀ p ∈ pre, p.applies = true) → f.applies = false →
      apply_patches found =
        (pre.map patchCmd ++ [patchCmd f], some (PatchError.patchFailed f.name))) := by
  refine ⟨?_, ?_, ?_, ?_⟩
  · intro h
    subst h
    rfl
  · haveI : IsTotal PatchFile patchLe :=
      ⟨fun a b => charListLe_total a.name.toList b.name.toList⟩
    haveI : IsTrans PatchFile patchLe :=
      ⟨fun a b c => charListLe_trans a.name.toList b.name.toList c.name.toList⟩
    exact List.sorted_insertionSort patchLe found
  · exact List.perm_insertionSort patchLe found
  · intro pre f post heq hpre hf
    have hne : (sortPatches found).isEmpty = false := by
      rw [heq]
      cases pre <;> rfl
    rw [apply_patches]
    simp only [hne, Bool.false_eq_true, if_false]
    rw [heq]
    exact apply_patches_go_fail pre f post hpre hf

/-- C5 witness: three discovered patches, sorted by filename as p1, p2, p3,
where p2 fails: p1 is applied, p2 is attempted and fails, p3 never runs. -/
theorem c5_witness :
    sortPatches c5_found = [c5_p1, c5_p2, c5_p3] ∧
    apply_patches c5_found =
      ([c5_p1].map patchCmd ++ [patchCmd c5_p2],
        some (PatchError.patchFailed c5_p2.name)) :=
  ⟨by decide,
   (c5_apply_patches_fail_fast c5_found).2.2.2 [c5_p1] c5_p2 [c5_p3] (by decide) (by decide)
     (by decide)⟩

theorem envGet_envSet_self (e : Env) (k v : String) : envGet (envSet e k v) k = some v := by
  induction e with
  | nil => simp [envSet, envGet]
  | cons kv rest ih =>
    obtain ⟨k0, v0⟩ := kv
    by_cases h : k0 = k
    · subst h
      simp [envSet, envGet]
    · simp [envSet, envGet, h, ih]

theorem envGet_envSet_ne (e : Env) (k v k2 : String) (h : k ≠ k2) :
    envGet (envSet e k v) k2 = envGet e k2 := by
  induction e with
  | nil => simp [envSet, envGet, h]
  | cons kv rest ih =>
    obtain ⟨k0, v0⟩ := kv
    by_cases h0 : k0 = k
    · subst h0
      simp [envSet, envGet, h]
    · by_cases h2 : k0 = k2 <;> simp [envSet, envGet, h0, h2, ih, Ne.symm h]

/-- C9 (amended): the Build Environment is derived from the ambient
environment value alone (the ambient mapping is never written); the
dead-strip linker flag is appended to any pre-existing RUSTFLAGS rather than
overwriting it; and every inherited variable other than the ones the
function sets (SDKROOT, CC, CXX, AR, RANLIB, the deployment-target
variables, RUSTFLAGS) is passed through unchanged.  (The unamended claim
said every variable other than RUSTFLAGS is passed through; the toolchain
variables are overwritten, see the counterexample.) -/
theorem c9_env_passthrough (xc : Xcrun) (sdk minVersion : String) (ambient : Env)
    (key : String) (hk : keyOverridden key = false) :
    envGet (rust_env_for_sdk xc sdk minVersion ambient) key = envGet ambient key ∧
    envGet (rust_env_for_sdk xc sdk minVersion ambient) "RUSTFLAGS" =
      some (pyStrip (((envGet ambient "RUSTFLAGS").getD "") ++ " " ++ extra_flags)) := by
  have h1 : key ≠ "SDKROOT" := fun h => absurd (h ▸ hk) (by decide)
  have h2 : key ≠ "CC" := fun h => absurd (h ▸ hk) (by decide)
  have h3 : key ≠ "CXX" := fun h => absurd (h ▸ hk) (by decide)
  have h4 : key ≠ "AR" := fun h => absurd (h ▸ hk) (by decide)
  have h5 : key ≠ "RANLIB" := fun h => absurd (h ▸ hk) (by decide)
  have h6 : key ≠ "IPHONEOS_DEPLOYMENT_TARGET" := fun h => absurd (h ▸ hk) (by decide)
  have h7 : key ≠ "MACOSX_DEPLOYMENT_TARGET" := fun h => absurd (h ▸ hk) (by decide)
  have h8 : key ≠ "RUSTFLAGS" := fun h => absurd (h ▸ hk) (by decide)
  simp only [rust_env_for_sdk]
  by_cases hi : ("iphone").toList.isPrefixOf sdk.toList = true
  · rw [if_pos hi]
    constructor
    · rw [envGet_envSet_ne _ _ _ _ (Ne.symm h8), envGet_envSet_ne _ _ _ _ (Ne.symm h6),
        envGet_envSet_ne _ _ _ _ (Ne.symm h5), envGet_envSet_ne _ _ _ _ (Ne.symm h4),
        envGet_envSet_ne _ _ _ _ (Ne.symm h3), envGet_envSet_ne _ _ _ _ (Ne.symm h2),
        envGet_envSet_ne _ _ _ _ (Ne.symm h1)]
    · rw [envGet_envSet_self,
        envGet_envSet_ne _ _ _ _ (by decide : "IPHONEOS_DEPLOYMENT_TARGET" ≠ "RUSTFLAGS"),
        envGet_envSet_ne _ _ _ _ (by decide : "RANLIB" ≠ "RUSTFLAGS"),
        envGet_envSet_ne _ _ _ _ (by decide : "AR" ≠ "RUSTFLAGS"),
        envGet_envSet_ne _ _ _ _ (by decide : "CXX" ≠ "RUSTFLAGS"),
        envGet_envSet_ne _ _ _ _ (by decide : "CC" ≠ "RUSTFLAGS"),
        envGet_envSet_ne _ _ _ _ (by decide : "SDKROOT" ≠ "RUSTFLAGS")]
  · rw [if_neg hi]
    constructor
    · rw [envGet_envSet_ne _ _ _ _ (Ne.symm h8), envGet_envSet_ne _ _ _ _ (Ne.symm h7),
        envGet_envSet_ne _ _ _ _ (Ne.symm h5), envGet_envSet_ne _ _ _ _ (Ne.symm h4),
        envGet_envSet_ne _ _ _ _ (Ne.symm h3), envGet_envSet_ne _ _ _ _ (Ne.symm h2),
        envGet_envSet_ne _ _ _ _ (Ne.symm h1)]
    · rw [envGet_envSet_self,
        envGet_envSet_ne _ _ _ _ (by decide : "MACOSX_DEPLOYMENT_TARGET" ≠ "RUSTFLAGS"),
        envGet_envSet_ne _ _ _ _ (by decide : "RANLIB" ≠ "RUSTFLAGS"),
        envGet_envSet_ne _ _ _ _ (by decide : "AR" ≠ "RUSTFLAGS"),
        envGet_envSet_ne _ _ _ _ (by decide : "CXX" ≠ "RUSTFLAGS"),
        envGet_envSet_ne _ _ _ _ (by decide : "CC" ≠ "RUSTFLAGS"),
        envGet_envSet_ne _ _ _ _ (by decide : "SDKROOT" ≠ "RUSTFLAGS")]

/-- C9 counterexample: CC is an inherited variable other than RUSTFLAGS, yet
it is not passed through unchanged - the derived environment overwrites it
with the xcrun-resolved compiler path - refuting the claim that every
inherited variable other than RUSTFLAGS is passed through unchanged. -/
theorem c9_counterexample :
    ("CC" : String) ≠ "RUSTFLAGS" ∧
    envGet c9_ambient "CC" = some "cc0" ∧
    envGet (rust_env_for_sdk c9_xcrun "macosx" "14.0" c9_ambient) "CC" =
      some "/usr/bin/clang" ∧
    envGet (rust_env_for_sdk c9_xcrun "macosx" "14.0" c9_ambient) "CC" ≠
      envGet c9_ambient "CC" := by
  decide

/-- C9 witness: at a concrete ambient environment, the untouched variable
PATH is passed through and the dead-strip flag is appended to the inherited
RUSTFLAGS value. -/
theorem c9_witness :
    keyOverridden "PATH" = false ∧
    envGet (rust_env_for_sdk c9_xcrun "macosx" "14.0" c9_ambient) "PATH" =
      envGet c9_ambient "PATH" ∧
    envGet (rust_env_for_sdk c9_xcrun "macosx" "14.0" c9_ambient) "RUSTFLAGS" =
      some (pyStrip (((envGet c9_ambient "RUSTFLAGS").getD "") ++ " " ++ extra_flags)) :=
  ⟨by decide,
   (c9_env_passthrough c9_xcrun "macosx" "14.0" c9_ambient "PATH" (by decide)).1,
   (c9_env_passthrough c9_xcrun "macosx" "14.0" c9_ambient "PATH" (by decide)).2⟩

end MakeSpm
